import Mathlib

/-!
Verification of the yelp_cheetah compiler core against its specification.

The definitions below are a shallow embedding of the two source files
`Cheetah/SettingsManager.py` and `Cheetah/legacy_compiler.py`.  Python
dictionaries are modelled as functions `String → Option Value`, mutation is
modelled by explicit state passing, and raised exceptions are modelled with
`Except` (or with a `State × Option Error` pair where the claim is about the
state left behind by a failure).
-/

namespace YelpCheetah

/-- A settings value.  The default compiler settings hold booleans, strings,
a list of strings (`gettextTokens`) and a string-keyed mapping
(`macroDirectives`), so those are the value shapes we model. -/
inductive Value where
  | vNone : Value
  | vBool : Bool → Value
  | vStr : String → Value
  | vList : List String → Value
  | vDict : List (String × String) → Value
deriving DecidableEq

/-- Errors raised by `SettingsManager` operations.  `KeyError` is the plain
dictionary-lookup failure of `self._settings[name]`; `UnexpectedSettingName`
is the dedicated `ValueError` subclass raised by `setSetting`; `IndexError`
is the failure of `list.pop()` on an empty per-name stack. -/
inductive SettingsError where
  | KeyError : SettingsError
  | UnexpectedSettingName : String → SettingsError
  | IndexError : SettingsError
deriving DecidableEq

/-- State of a `SettingsManager`: the `_settings` dict and the `_stacks`
defaultdict of per-name override stacks (absent keys read as `[]`);
the field is called `stacksMap` because `stacks` is a reserved word here. -/
structure SMState where
  settings : String → Option Value
  stacksMap : String → List Value

/-- `SettingsManager.setting`: `return self._settings[name]` — a plain dict
access, raising `KeyError` when the name is absent. -/
def setting (s : SMState) (name : String) : Except SettingsError Value :=
  match s.settings name with
  | some v => Except.ok v
  | none => Except.error SettingsError.KeyError

/-- `SettingsManager.setSetting`: raises `UnexpectedSettingName` when the name
was never declared, otherwise overwrites the stored value. -/
def setSetting (s : SMState) (name : String) (v : Value) : Except SettingsError SMState :=
  if (s.settings name).isSome then
    Except.ok { s with settings := fun n => if n = name then some v else s.settings n }
  else
    Except.error (SettingsError.UnexpectedSettingName name)

/-- `SettingsManager.pushSetting`: appends the current value (read via
`setting`, hence `KeyError` when absent) to the per-name stack, then writes
the new value via `setSetting`. -/
def pushSetting (s : SMState) (name : String) (v : Value) : Except SettingsError SMState :=
  match s.settings name with
  | none => Except.error SettingsError.KeyError
  | some cur =>
      setSetting
        { s with stacksMap := fun n => if n = name then s.stacksMap n ++ [cur] else s.stacksMap n }
        name v

/-- `SettingsManager.popSetting`: pops the most recently pushed value from the
per-name stack (`IndexError` when empty; Python `list.pop()` removes the last
element) and writes it back via `setSetting`. -/
def popSetting (s : SMState) (name : String) : Except SettingsError SMState :=
  match (s.stacksMap name).getLast? with
  | none => Except.error SettingsError.IndexError
  | some v =>
      setSetting
        { s with stacksMap := fun n => if n = name then (s.stacksMap n).dropLast else s.stacksMap n }
        name v

/-- `SettingsManager.updateSettings`: applies `setSetting` key by key, in the
iteration order of the supplied mapping.  An exception propagates at the
failing key; the mutations already performed persist, which we model by
returning the state reached so far together with the error. -/
def updateSettings (s : SMState) : List (String × Value) → SMState × Option SettingsError
  | [] => (s, none)
  | (k, v) :: rest =>
      match setSetting s k v with
      | Except.error e => (s, some e)
      | Except.ok s1 => updateSettings s1 rest

/-- The state reached by a run of successful `setSetting` writes — used to
describe the partial progress `updateSettings` leaves behind. -/
def applyWrites (s : SMState) : List (String × Value) → SMState
  | [] => s
  | (k, v) :: rest =>
      applyWrites { s with settings := fun n => if n = k then some v else s.settings n } rest

/-- `_DEFAULT_COMPILER_SETTINGS` from `legacy_compiler.py`, as the dict built
by `LegacyCompiler._initializeSettings`. -/
def defaultSettings : String → Option Value := fun name =>
  if name = "useNameMapper" then some (Value.vBool true)
  else if name = "useAutocalling" then some (Value.vBool false)
  else if name = "useDottedNotation" then some (Value.vBool false)
  else if name = "useLegacyImportMode" then some (Value.vBool true)
  else if name = "mainMethodName" then some (Value.vStr "respond")
  else if name = "mainMethodNameForSubclasses" then some (Value.vStr "writeBody")
  else if name = "gettextTokens" then
    some (Value.vList ["_", "gettext", "ngettext", "pgettext", "npgettext"])
  else if name = "macroDirectives" then some (Value.vDict [])
  else if name = "optimize_lookup" then some (Value.vBool true)
  else none

/-- A freshly initialized `LegacyCompiler` settings store: the default
settings dict and empty override stacks. -/
def defaultSettingsStore : SMState :=
  { settings := defaultSettings, stacksMap := fun _ => [] }

/-! ### legacy_compiler.py: dotted-name resolution -/

/-- `INDENT = 4 * ' '`. -/
def INDENT : String := "    "

/-- `CLASS_NAME = 'YelpCheetahTemplate'`. -/
def CLASS_NAME : String := "YelpCheetahTemplate"

/-- `BASE_CLASS_NAME = 'YelpCheetahBaseClass'`. -/
def BASE_CLASS_NAME : String := "YelpCheetahBaseClass"

/-- One link of a dotted reference, the tuple `(name, useAC, remainderOfExpr)`
fed to `genPlainVar` / `genNameMapperVar`: the dotted name base, the autocall
flag, and any trailing arglist/index/slice text. -/
structure NameChunk where
  name : String
  useAC : Bool
  rem : String
deriving DecidableEq

/-- Helper for `partitionDot`: splits a character list at the first `'.'`,
returning the parts before and after it, or `none` when there is no dot. -/
def breakAtDot : List Char → Option (List Char × List Char)
  | [] => none
  | c :: cs =>
      if c = '.' then some ([], cs)
      else
        match breakAtDot cs with
        | none => none
        | some (pre, post) => some (c :: pre, post)

/-- Python `s.partition('.')`: `(head, '.', tail)` split at the first dot, or
`(s, '', '')` when `s` contains no dot. -/
def partitionDot (s : String) : String × String × String :=
  match breakAtDot s.data with
  | none => (s, "", "")
  | some (pre, post) => (String.mk pre, ".", String.mk post)

/-- `genPlainVar`: renders a Cheetah $var without NameMapper — the first
chunk's base and trailing text, then `. name rem` for each later chunk.
(The source pops from a reversed list, i.e. walks the chunks in order; it
raises `IndexError` on an empty list, which no caller passes, so the `[]`
case is given an arbitrary value.) -/
def genPlainVar : List NameChunk → String
  | [] => ""
  | c :: cs =>
      cs.foldl (fun acc ch => acc ++ "." ++ ch.name ++ ch.rem) (c.name ++ c.rem)

/-- How Python's `'%s' % b` renders a `bool`. -/
def pyBool (b : Bool) : String :=
  if b then "True" else "False"

/-- `LegacyCompiler.genNameMapperVar`: renders a dotted reference through the
two-stage dynamic resolver.  With `optimize_enabled`, the first chunk's base
is partitioned at its first dot: only the leading identifier is passed to
`VFFSL`, the rest of the base and every later chunk become plain dotted text.
Without it, the first chunk becomes a full `VFFSL(SL, "name", AC, DN)` call
and every later chunk wraps the accumulated code in a `VFN(...)` call,
passing `defaultUseAC and useAC` and the global dotted-fallback setting.
(The source raises `IndexError` on an empty chunk list; no caller passes
one, so the `[]` case is given an arbitrary value.) -/
def genNameMapperVar (defaultUseAC dottedNotationSetting : Bool) (optimize_enabled : Bool) :
    List NameChunk → String
  | [] => ""
  | c :: cs =>
      let first :=
        if optimize_enabled then
          match partitionDot c.name with
          | (namept1, dot, rest) =>
              "VFFSL(SL, \"" ++ namept1 ++ "\")" ++ dot ++ rest ++ c.rem
        else
          "VFFSL(SL, \"" ++ c.name ++ "\", " ++ pyBool (defaultUseAC && c.useAC) ++ ", " ++
            pyBool dottedNotationSetting ++ ")" ++ c.rem
      cs.foldl
        (fun acc ch =>
          if optimize_enabled then acc ++ "." ++ ch.name ++ ch.rem
          else
            "VFN(" ++ acc ++ ", \"" ++ ch.name ++ "\", " ++ pyBool (defaultUseAC && ch.useAC) ++
              ", " ++ pyBool dottedNotationSetting ++ ")" ++ ch.rem)
        first

/-- The compiler settings read by `genCheetahVar`, as typed fields (the
source reads them from the settings dict, where they are the booleans,
strings and lists of `defaultSettings`). -/
structure CompilerSettings where
  useNameMapper : Bool
  useAutocalling : Bool
  useDottedNotation : Bool
  useLegacyImportMode : Bool
  mainMethodName : String
  mainMethodNameForSubclasses : String
  gettextTokens : List String
  optimize_lookup : Bool
deriving DecidableEq

/-- `LegacyCompiler.genCheetahVar`: decides between plain and dynamic
rendering of a dotted reference.  `first_accessed_var` is the part of the
first chunk's base before its first dot; plain mode is forced when
NameMapper is off, when the caller requests it, or when the optimization is
enabled (optimize_lookup on, autocalling and dotted fallback off) and
`first_accessed_var` is a known local, global or builtin name.  The gettext
side effect (`addGetTextVar`) touches only the scannables list, not the
returned code, and is modelled separately by `gettextScannable`.
(`BUILTIN_NAMES` is `dir(six.moves.builtins)`, a host-runtime value, so it
is passed in as `builtinNames`.) -/
def genCheetahVar (cfg : CompilerSettings) (builtinNames localVars globalVars : List String)
    (nameChunks : List NameChunk) (plain : Bool) : String :=
  match nameChunks with
  | [] => ""
  | c :: cs =>
      let first_accessed_var := (partitionDot c.name).1
      let optimize_enabled :=
        cfg.optimize_lookup && !cfg.useAutocalling && !cfg.useDottedNotation
      let plain2 :=
        !cfg.useNameMapper || plain ||
          (optimize_enabled &&
            (localVars.contains first_accessed_var ||
              globalVars.contains first_accessed_var ||
              builtinNames.contains first_accessed_var))
      if plain2 then genPlainVar (c :: cs)
      else genNameMapperVar cfg.useAutocalling cfg.useDottedNotation optimize_enabled (c :: cs)

/-- `LegacyCompiler.addGetTextVar`: the scannable string appended for a
reference that mentions a gettext token — its plain rendering plus a
line/column comment. -/
def gettextScannable (nameChunks : List NameChunk) (lineCol : Nat × Nat) : String :=
  genPlainVar nameChunks ++ " # generated from line " ++ toString lineCol.1 ++ ", col " ++
    toString lineCol.2 ++ "."

/-! ### legacy_compiler.py: MethodCompiler -/

/-- Errors raised inside `legacy_compiler.py`.  The source raises
`AssertionError` at each site; the constructors carry the spec's taxonomy
names for the three distinct raise sites (`MethodCompiler.dedent`,
`addReturn`/`addYield`, `LegacyCompiler.set_extends`), plus the `KeyError`
of a settings read. -/
inductive CompilerError where
  | IndentationUnderflow : CompilerError
  | InvalidControlMix : CompilerError
  | InvalidExtends : CompilerError
  | SettingKeyError : CompilerError
deriving DecidableEq

/-- The `CallDetails` namedtuple. -/
structure CallDetails where
  call_id : String
  function_name : String
  args : String
  lineCol : Nat × Nat
deriving DecidableEq

/-- The mutable state of a `MethodCompiler`, one field per attribute set in
`MethodCompiler.__init__`. -/
structure MCState where
  nextVariableId : Nat
  methodName : String
  initialMethodComment : String
  indentLev : Nat
  pendingStrConstChunks : List String
  methodBodyChunks : List String
  callRegionsStack : List CallDetails
  filterRegionsStack : List String
  hasReturnStatement : Bool
  isGenerator : Bool
  arguments : List (String × Option String)
  localVars : List String
  decorators : List String
deriving DecidableEq

/-- `MethodCompiler.__init__`: the indentation level starts (and, between
statements, stays) at 2; the argument list starts with the implicit receiver
and `self` is the one initial local name. -/
def mcInit (methodName : String) (initialMethodComment : String)
    (decorators : List String) : MCState :=
  { nextVariableId := 0
    methodName := methodName
    initialMethodComment := initialMethodComment
    indentLev := 2
    pendingStrConstChunks := []
    methodBodyChunks := []
    callRegionsStack := []
    filterRegionsStack := []
    hasReturnStatement := false
    isGenerator := false
    arguments := [("self", none)]
    localVars := ["self"]
    decorators := decorators }

/-- `MethodCompiler.indentation`: `INDENT * self._indentLev`. -/
def indentation (indentLev : Nat) : String :=
  String.join (List.replicate indentLev INDENT)

/-- `MethodCompiler.dedent`: raises (spec name `IndentationUnderflow`) only
when the indentation level is 0, otherwise decrements it. -/
def dedent (s : MCState) : Except CompilerError MCState :=
  if s.indentLev = 0 then Except.error CompilerError.IndentationUnderflow
  else Except.ok { s with indentLev := s.indentLev - 1 }

/-- Modelled from the spec: `commitStrConst` quotes the merged literal using
Python `repr` and `escapedNewlineRE` from `Cheetah.legacy_parser`, a source
file not available here.  The spec says the merged block is written verbatim
with embedded line breaks preserved exactly, which we render as a
triple-quoted literal holding the raw text. -/
def quoteLit (s : String) : String :=
  "'''" ++ s ++ "'''"

/-- The append performed by `MethodCompiler.addChunk` after its
`commitStrConst` call: a newline, the current indentation and the chunk text
(just a newline for an empty chunk). -/
def addChunkCore (s : MCState) (chunk : String) : MCState :=
  { s with
      methodBodyChunks :=
        s.methodBodyChunks ++
          [if chunk = "" then "\n" else "\n" ++ indentation s.indentLev ++ chunk] }

/-- `MethodCompiler.commitStrConst`: flushes the pending literal chunks as a
single `write(...)` statement (no output when the joined text is empty).
In the source the emission goes through `addWriteChunk` and `addChunk`,
whose recursive `commitStrConst` call is a no-op because the pending list
has just been cleared — hence `addChunkCore` here. -/
def commitStrConst (s : MCState) : MCState :=
  let strConst := String.join s.pendingStrConstChunks
  let s1 := { s with pendingStrConstChunks := [] }
  if strConst = "" then s1
  else addChunkCore s1 ("write(" ++ quoteLit strConst ++ ")")

/-- `MethodCompiler.addChunk`: flush the pending literal, then append the
chunk at the current indentation. -/
def addChunk (s : MCState) (chunk : String) : MCState :=
  addChunkCore (commitStrConst s) chunk

/-- `MethodCompiler.appendToPrevChunk`: `self._methodBodyChunks[-1] +=
appendage` (the source raises `IndexError` on an empty list; every caller
appends a chunk first, so the empty case is given an arbitrary value). -/
def appendToPrevChunk (s : MCState) (appendage : String) : MCState :=
  { s with
      methodBodyChunks :=
        s.methodBodyChunks.dropLast ++
          [((s.methodBodyChunks.getLast?).getD "") ++ appendage] }

/-- `MethodCompiler._append_line_col_comment`. -/
def appendLineColComment (s : MCState) (lineCol : Nat × Nat) : MCState :=
  appendToPrevChunk s
    (" # generated from line " ++ toString lineCol.1 ++ ", col " ++ toString lineCol.2 ++ ".")

/-- `MethodCompiler._add_with_line_col`: merge the statement's bound names
into the local set, append the chunk, then the line/col comment.
(`get_lvalues` comes from `Cheetah.ast_utils`, a source file not available
here, so the extraction function is passed in as `get_lvalues`; the claims
below hold for every such function.) -/
def addWithLineCol (get_lvalues : String → List String) (s : MCState) (expr : String)
    (lineCol : Nat × Nat) : MCState :=
  appendLineColComment (addChunk { s with localVars := s.localVars ++ get_lvalues expr } expr)
    lineCol

/-- `MethodCompiler.addReturn`: asserts that no yield was emitted (spec name
`InvalidControlMix`), records the return, then emits the statement. -/
def addReturn (get_lvalues : String → List String) (s : MCState) (expr : String)
    (lineCol : Nat × Nat) : Except CompilerError MCState :=
  if s.isGenerator then Except.error CompilerError.InvalidControlMix
  else Except.ok (addWithLineCol get_lvalues { s with hasReturnStatement := true } expr lineCol)

/-- `MethodCompiler.addYield`: asserts that no return was emitted (spec name
`InvalidControlMix`), marks the method as a generator, then emits the
statement. -/
def addYield (get_lvalues : String → List String) (s : MCState) (expr : String)
    (lineCol : Nat × Nat) : Except CompilerError MCState :=
  if s.hasReturnStatement then Except.error CompilerError.InvalidControlMix
  else Except.ok (addWithLineCol get_lvalues { s with isGenerator := true } expr lineCol)

/-! ### legacy_compiler.py: LegacyCompiler module assembly and set_extends -/

/-- Python `'\n'.join(xs)`. -/
def joinNL : List String → String
  | [] => ""
  | [x] => x
  | x :: xs => x ++ "\n" ++ joinNL xs

/-- `LegacyCompiler.gettext_scannables`: indents every recorded scannable,
and when any exist joins them under a `__CHEETAH_gettext_scannables`
function header followed by a blank line; otherwise the empty string. -/
def gettext_scannables (recorded : List String) : String :=
  let scannables := recorded.map (fun nameChunks => INDENT ++ nameChunks)
  if scannables.isEmpty then ""
  else joinNL ("\ndef __CHEETAH_gettext_scannables():" :: scannables) ++ "\n\n"

/-- The module template of `LegacyCompiler.getModuleCode` after
`textwrap.dedent(...).strip()`, with its format slots filled: the fixed
future-import header, the accumulated import statements joined by newlines,
the single base-class import, the fixed module marker, the class body, the
gettext section and the fixed direct-execution stanza.  (The parse that
accumulates these fields is driven by `Cheetah.legacy_parser`, outside this
code; the render is a pure function of the accumulated fields.) -/
def getModuleCode (importStatements : List String) (base_import : String)
    (class_def : String) (scannables : List String) : String :=
  "from __future__ import unicode_literals\n" ++
    joinNL importStatements ++ "\n" ++
    base_import ++
    "\n\n\n# This is compiled yelp_cheetah sourcecode\n__YELP_CHEETAH__ = True\n\n\n" ++
    class_def ++ "\n\n" ++
    gettext_scannables scannables ++
    "\nif __name__ == '__main__':\n    from os import environ\n    from sys import stdout\n" ++
    "    stdout.write(" ++ CLASS_NAME ++ "(searchList=[environ]).respond())" ++ "\n"

/-- `LegacyCompiler.__init__`: the initial import-statement list. -/
def initialImportStatements : List String :=
  [ "from Cheetah.DummyTransaction import DummyTransaction",
    "from Cheetah.NameMapper import valueForName as VFN",
    "from Cheetah.NameMapper import valueFromFrameOrSearchList as VFFSL",
    "from Cheetah.Template import NO_CONTENT" ]

/-- `LegacyCompiler.__init__`: the initial known global names. -/
def initialGlobalVars : List String :=
  ["DummyTransaction", "NO_CONTENT", "VFN", "VFFSL"]

/-- The slice of `LegacyCompiler` state touched by `set_extends`: the
settings dict, the entry-point method name held by the active
`ClassCompiler`'s main method (`setMainMethodName` stores the value read
from the settings), the known global names and the base-class import
line. -/
structure CompilerState where
  settings : String → Option Value
  mainMethodName : Value
  globalVars : List String
  base_import : String

/-- `LegacyCompiler.set_extends`, modelled as mutation plus an optional
raised error, so that a failure returns the state it leaves behind.  It
first renames the entry-point method to the `mainMethodNameForSubclasses`
setting, then checks the target against the known globals (raising, spec
name `InvalidExtends`), then rewrites the base-class import; for the
reserved target `Cheetah.partial_template` it extends the globals with the
method names of the name-discovery pass (`get_defined_method_names` reruns
the external parser, outside this code, so its result is passed in as
`discoveredMethodNames`). -/
def set_extends (discoveredMethodNames : List String) (s : CompilerState)
    (extends_name : String) : CompilerState × Option CompilerError :=
  match s.settings "mainMethodNameForSubclasses" with
  | none => (s, some CompilerError.SettingKeyError)
  | some v =>
      let s1 := { s with mainMethodName := v }
      if s1.globalVars.contains extends_name then
        (s1, some CompilerError.InvalidExtends)
      else
        let s2 :=
          { s1 with
              base_import :=
                "from " ++ extends_name ++ " import " ++ CLASS_NAME ++ " as " ++
                  BASE_CLASS_NAME }
        if extends_name = "Cheetah.partial_template" then
          ({ s2 with globalVars := s2.globalVars ++ discoveredMethodNames }, none)
        else (s2, none)

/-! ### Helper notions and lemmas -/

/-- `needle` occurs as a contiguous substring of `hay`. -/
def isSubstringOf (needle hay : String) : Prop :=
  needle.data <:+: hay.data

instance (needle hay : String) : Decidable (isSubstringOf needle hay) :=
  List.decidableInfix needle.data hay.data

/-- The plain dotted-attribute text appended for the chunks after the first
one: `. name rem` for each chunk. -/
def plainTailRender : List NameChunk → String
  | [] => ""
  | ch :: cs => "." ++ ch.name ++ ch.rem ++ plainTailRender cs

theorem foldl_dotjoin (cs : List NameChunk) (a : String) :
    cs.foldl (fun acc ch => acc ++ "." ++ ch.name ++ ch.rem) a = a ++ plainTailRender cs := by
  induction cs generalizing a with
  | nil => simp [plainTailRender]
  | cons ch cs ih =>
      rw [List.foldl_cons, ih]
      simp [plainTailRender, String.append_assoc]

/-- The state produced by a successful `pushSetting` whose saved current
value is `cur`. -/
def pushedState (s : SMState) (k : String) (v cur : Value) : SMState :=
  { settings := fun n => if n = k then some v else s.settings n
    stacksMap := fun n => if n = k then s.stacksMap n ++ [cur] else s.stacksMap n }

theorem pushSetting_eq_pushedState (s : SMState) (k : String) (v cur : Value)
    (hcur : s.settings k = some cur) :
    pushSetting s k v = Except.ok (pushedState s k v cur) := by
  simp [pushSetting, setSetting, pushedState, hcur]

theorem popSetting_pushedState (s : SMState) (k : String) (v cur : Value)
    (hcur : s.settings k = some cur) :
    popSetting (pushedState s k v cur) k = Except.ok s := by
  obtain ⟨st, sk⟩ := s
  simp only [pushedState, popSetting, setSetting] at *
  simp only [if_pos rfl, List.getLast?_concat, Option.isSome_some, if_true]
  refine congrArg Except.ok ?_
  simp only [SMState.mk.injEq]
  constructor
  · funext n
    by_cases hn : n = k
    · subst hn; simp [hcur]
    · simp [hn]
  · funext n
    by_cases hn : n = k
    · subst hn; simp
    · simp [hn]

theorem updateSettings_stops_at_undeclared (ps : List (String × Value)) (s : SMState)
    (k : String) (v : Value) (rest : List (String × Value))
    (hps : ∀ p ∈ ps, (s.settings p.1).isSome = true) (hk : s.settings k = none) :
    updateSettings s (ps ++ (k, v) :: rest) =
      (applyWrites s ps, some (SettingsError.UnexpectedSettingName k)) := by
  induction ps generalizing s with
  | nil =>
      simp [updateSettings, setSetting, hk, applyWrites]
  | cons p ps ih =>
      obtain ⟨p1, w⟩ := p
      have hp1 : (s.settings p1).isSome = true := hps (p1, w) (by simp)
      simp only [List.cons_append, updateSettings, setSetting, hp1, if_true, applyWrites]
      apply ih
      · intro q hq
        have hq2 := hps q (by simp [hq])
        by_cases hqe : q.1 = p1 <;> simp [hqe, hq2]
      · have hne : k ≠ p1 := by
          intro he
          rw [he] at hk
          rw [hk] at hp1
          exact Bool.noConfusion hp1
        simp [hne, hk]

theorem addWithLineCol_flags (get_lvalues : String → List String) (s : MCState) (e : String)
    (lc : Nat × Nat) :
    (addWithLineCol get_lvalues s e lc).hasReturnStatement = s.hasReturnStatement ∧
    (addWithLineCol get_lvalues s e lc).isGenerator = s.isGenerator := by
  unfold addWithLineCol appendLineColComment appendToPrevChunk addChunk addChunkCore
    commitStrConst
  constructor <;> (dsimp only; split <;> rfl)

/-! ### Claim theorems -/

/-- C4 (counterexample): the claim says a dedent at the base indentation
level fails with `IndentationUnderflow`; but a fresh `MethodCompiler` sits
at its base level 2 and `dedent` there succeeds, decrementing the level
to 1. -/
theorem dedent_at_base_level_succeeds :
    (mcInit "respond" "## comment" []).indentLev = 2 ∧
    dedent (mcInit "respond" "## comment" []) =
      Except.ok { mcInit "respond" "## comment" [] with indentLev := 1 } :=
  ⟨rfl, rfl⟩

/-- C4 (amended): `MethodCompiler.dedent` fails with `IndentationUnderflow`
exactly when the indentation level is 0 — two levels below the base level 2
a method starts at — and otherwise succeeds, decrementing the level. -/
theorem dedent_underflow_iff_level_zero (s : MCState) :
    (dedent s = Except.error CompilerError.IndentationUnderflow ↔ s.indentLev = 0) ∧
    (s.indentLev ≠ 0 → dedent s = Except.ok { s with indentLev := s.indentLev - 1 }) := by
  by_cases h0 : s.indentLev = 0 <;> simp [dedent, h0]

/-- C4 (witness for the amended claim): dedenting from level 0 fails with
`IndentationUnderflow`. -/
theorem dedent_underflow_iff_level_zero_witness :
    dedent { mcInit "respond" "## comment" [] with indentLev := 0 } =
      Except.error CompilerError.IndentationUnderflow :=
  (dedent_underflow_iff_level_zero _).1.mpr rfl

/-- C5 (counterexample): the claim says reading an absent name fails with
the `UnknownSetting` error (`UnexpectedSettingName`); but
`SettingsManager.setting` is a bare dict access, so on the freshly
initialized default store a read of an absent name raises the generic
`KeyError`, not `UnexpectedSettingName`. -/
theorem setting_absent_raises_KeyError_not_UnexpectedSettingName :
    setting defaultSettingsStore "no_such_setting" = Except.error SettingsError.KeyError ∧
    ¬ ∃ m, setting defaultSettingsStore "no_such_setting" =
        Except.error (SettingsError.UnexpectedSettingName m) := by
  constructor
  · rfl
  · rintro ⟨m, hm⟩
    have h : setting defaultSettingsStore "no_such_setting" =
        Except.error SettingsError.KeyError := rfl
    rw [h] at hm
    exact SettingsError.noConfusion (Except.error.inj hm)

/-- C5 (amended): for every name absent from the settings store, reading it
fails — but with the generic missing-key error of the dict access
(`KeyError`), not with `UnexpectedSettingName`; only writes of undeclared
names raise `UnexpectedSettingName`. -/
theorem setting_absent_raises_KeyError (s : SMState) (name : String)
    (h : s.settings name = none) :
    setting s name = Except.error SettingsError.KeyError := by
  simp [setting, h]

/-- C5 (witness for the amended claim). -/
theorem setting_absent_raises_KeyError_witness :
    defaultSettingsStore.settings "no_such_setting" = none ∧
    setting defaultSettingsStore "no_such_setting" = Except.error SettingsError.KeyError :=
  ⟨rfl, setting_absent_raises_KeyError defaultSettingsStore "no_such_setting" rfl⟩

/-- C7: for every state in which the key `k` is declared — hence under
arbitrary prior nesting and arbitrary interleaving with push/pop sequences
on other keys, all of which only vary the starting state — the sequence
`push(k, v1); push(k, v2); pop(k); pop(k)` succeeds and restores the entire
store, in particular the value `k` had before the first push. -/
theorem push_push_pop_pop_restores (s : SMState) (k : String) (v1 v2 : Value)
    (h : (s.settings k).isSome = true) :
    ∃ a b c, pushSetting s k v1 = Except.ok a ∧ pushSetting a k v2 = Except.ok b ∧
      popSetting b k = Except.ok c ∧ popSetting c k = Except.ok s := by
  obtain ⟨cur, hcur⟩ := Option.isSome_iff_exists.mp h
  have ha : (pushedState s k v1 cur).settings k = some v1 := by
    simp [pushedState]
  refine ⟨pushedState s k v1 cur, pushedState (pushedState s k v1 cur) k v2 v1,
    pushedState s k v1 cur, ?_, ?_, ?_, ?_⟩
  · exact pushSetting_eq_pushedState s k v1 cur hcur
  · exact pushSetting_eq_pushedState (pushedState s k v1 cur) k v2 v1 ha
  · exact popSetting_pushedState (pushedState s k v1 cur) k v2 v1 ha
  · exact popSetting_pushedState s k v1 cur hcur

/-- C7 (witness): on the default store, pushing two values onto
`mainMethodName` and popping twice restores the store. -/
theorem push_push_pop_pop_restores_witness :
    (defaultSettingsStore.settings "mainMethodName").isSome = true ∧
    ∃ a b c, pushSetting defaultSettingsStore "mainMethodName" (Value.vStr "x") = Except.ok a ∧
      pushSetting a "mainMethodName" (Value.vStr "y") = Except.ok b ∧
      popSetting b "mainMethodName" = Except.ok c ∧
      popSetting c "mainMethodName" = Except.ok defaultSettingsStore :=
  ⟨rfl, push_push_pop_pop_restores defaultSettingsStore "mainMethodName" (Value.vStr "x")
    (Value.vStr "y") rfl⟩

/-- C8: a single write to an undeclared key raises `UnexpectedSettingName`
before any mutation, so every existing value is untouched (the `Except`
model returns no new state on error — the original store stands); and
`updateSettings` applies writes one key at a time, so a bulk merge whose
declared keys `ps` precede an undeclared key `k` stops at `k` with the
writes of `ps` already applied — no transactional rollback. -/
theorem write_undeclared_raises_and_bulk_merge_is_not_transactional :
    (∀ (s : SMState) (k : String) (v : Value), s.settings k = none →
      setSetting s k v = Except.error (SettingsError.UnexpectedSettingName k)) ∧
    (∀ (s : SMState) (ps : List (String × Value)) (k : String) (v : Value)
      (rest : List (String × Value)),
      (∀ p ∈ ps, (s.settings p.1).isSome = true) → s.settings k = none →
      updateSettings s (ps ++ (k, v) :: rest) =
        (applyWrites s ps, some (SettingsError.UnexpectedSettingName k))) := by
  constructor
  · intro s k v hk
    simp [setSetting, hk]
  · intro s ps k v rest hps hk
    exact updateSettings_stops_at_undeclared ps s k v rest hps hk

/-- C8 (witness): merging `mainMethodName`, then the undeclared `zzz`, then
`optimize_lookup` into the default store stops at `zzz` with
`mainMethodName` already rewritten, and a single write of `zzz` errors. -/
theorem write_undeclared_witness :
    setSetting defaultSettingsStore "zzz" Value.vNone =
      Except.error (SettingsError.UnexpectedSettingName "zzz") ∧
    updateSettings defaultSettingsStore
        [("mainMethodName", Value.vStr "main"), ("zzz", Value.vNone),
          ("optimize_lookup", Value.vBool false)] =
      (applyWrites defaultSettingsStore [("mainMethodName", Value.vStr "main")],
        some (SettingsError.UnexpectedSettingName "zzz")) :=
  ⟨write_undeclared_raises_and_bulk_merge_is_not_transactional.1 defaultSettingsStore "zzz"
      Value.vNone rfl,
    write_undeclared_raises_and_bulk_merge_is_not_transactional.2 defaultSettingsStore
      [("mainMethodName", Value.vStr "main")] "zzz" Value.vNone
      [("optimize_lookup", Value.vBool false)]
      (by
        rintro p hp
        rw [List.mem_singleton] at hp
        subst hp
        rfl)
      rfl⟩

/-- C6: once a `MethodCompiler` has accepted a return statement, adding a
yield fails with `InvalidControlMix` — the assertion fires before any chunk
is appended, so the error returns no state and no output is emitted — and
symmetrically a return after an accepted yield fails; this holds for every
bound-name extraction function, every state and every statement text. -/
theorem yield_after_return_and_return_after_yield_fail (get_lvalues : String → List String)
    (s t : MCState) (e1 e2 : String) (lc1 lc2 : Nat × Nat) :
    (addReturn get_lvalues s e1 lc1 = Except.ok t →
      addYield get_lvalues t e2 lc2 = Except.error CompilerError.InvalidControlMix) ∧
    (addYield get_lvalues s e1 lc1 = Except.ok t →
      addReturn get_lvalues t e2 lc2 = Except.error CompilerError.InvalidControlMix) := by
  constructor
  · intro h
    by_cases hg : s.isGenerator
    · simp [addReturn, hg] at h
    · simp only [addReturn, hg, if_neg, Bool.false_eq_true, if_false, Except.ok.injEq] at h
      have ht : t.hasReturnStatement = true := by
        rw [← h]
        exact (addWithLineCol_flags get_lvalues _ e1 lc1).1
      simp [addYield, ht]
  · intro h
    by_cases hr : s.hasReturnStatement
    · simp [addYield, hr] at h
    · simp only [addYield, hr, if_neg, Bool.false_eq_true, if_false, Except.ok.injEq] at h
      have ht : t.isGenerator = true := by
        rw [← h]
        exact (addWithLineCol_flags get_lvalues _ e1 lc1).2
      simp [addReturn, ht]

/-- A bound-name extraction function that finds nothing, for concrete runs. -/
def glEmpty : String → List String := fun _ => []

/-- The state of a fresh `respond` method after `addReturn "return 1"` at
line 1, col 1 is accepted. -/
def mcAfterReturn : MCState :=
  { nextVariableId := 0
    methodName := "respond"
    initialMethodComment := "## comment"
    indentLev := 2
    pendingStrConstChunks := []
    methodBodyChunks := ["\n        return 1 # generated from line 1, col 1."]
    callRegionsStack := []
    filterRegionsStack := []
    hasReturnStatement := true
    isGenerator := false
    arguments := [("self", none)]
    localVars := ["self"]
    decorators := [] }

/-- C6 (witness): a concrete run — `addReturn` on a fresh method succeeds,
and `addYield` on the resulting state fails with `InvalidControlMix`. -/
theorem yield_after_return_fails_witness :
    addReturn glEmpty (mcInit "respond" "## comment" []) "return 1" (1, 1) =
      Except.ok mcAfterReturn ∧
    addYield glEmpty mcAfterReturn "yield 2" (2, 1) =
      Except.error CompilerError.InvalidControlMix :=
  ⟨by rfl,
    (yield_after_return_and_return_after_yield_fail glEmpty (mcInit "respond" "## comment" [])
        mcAfterReturn "return 1" "yield 2" (1, 1) (2, 1)).1 (by rfl)⟩

/-- C1 (counterexample): the claim says the single dynamic-resolution call
is keyed by the first segment's full dotted base text; but for the one
chunk `('a.b', True, '')` the optimized rendering keys the `VFFSL` call by
`a` only — the quoted full base `"a.b"` appears nowhere in the output. -/
theorem optimized_first_call_not_keyed_by_full_base :
    genNameMapperVar false false true [⟨"a.b", true, ""⟩] = "VFFSL(SL, \"a\").b" ∧
    ¬ isSubstringOf "\"a.b\"" (genNameMapperVar false false true [⟨"a.b", true, ""⟩]) := by
  constructor
  · rfl
  · decide

/-- C1 (amended): under dynamic mode with the optimization enabled, only the
first segment is rendered as a dynamic-resolution call, and that call is
keyed by the leading identifier of the first segment's dotted base (the
part before its first dot); the rest of that base, the first segment's
trailing text, and every later segment are appended as plain
dotted-attribute text. -/
theorem genNameMapperVar_optimized_shape (defaultUseAC dn : Bool) (c : NameChunk)
    (cs : List NameChunk) :
    genNameMapperVar defaultUseAC dn true (c :: cs) =
      "VFFSL(SL, \"" ++ (partitionDot c.name).1 ++ "\")" ++ (partitionDot c.name).2.1 ++
        (partitionDot c.name).2.2 ++ c.rem ++ plainTailRender cs := by
  rcases hp : partitionDot c.name with ⟨p1, dot, rest⟩
  simp only [genNameMapperVar, hp, if_true]
  rw [foldl_dotjoin]

/-- C3: with the optimization disabled, a three-segment reference renders as
exactly three nested dynamic-resolution calls — the innermost a `VFFSL` on
the scope-list token `SL` for the first segment, each outer one a `VFN` on
the previous result — and each call passes its own segment's autocall flag
ANDed with the global `useAutocalling` setting, together with the global
`useDottedNotation` setting. -/
theorem genNameMapperVar_unoptimized_three_segments (defaultUseAC dn : Bool)
    (c1 c2 c3 : NameChunk) :
    genNameMapperVar defaultUseAC dn false [c1, c2, c3] =
      "VFN(" ++
        ("VFN(" ++
          ("VFFSL(SL, \"" ++ c1.name ++ "\", " ++ pyBool (defaultUseAC && c1.useAC) ++ ", " ++
            pyBool dn ++ ")" ++ c1.rem) ++
          ", \"" ++ c2.name ++ "\", " ++ pyBool (defaultUseAC && c2.useAC) ++ ", " ++
          pyBool dn ++ ")" ++ c2.rem) ++
        ", \"" ++ c3.name ++ "\", " ++ pyBool (defaultUseAC && c3.useAC) ++ ", " ++
        pyBool dn ++ ")" ++ c3.rem := by
  rfl

/-- C2: with `optimize_lookup` on, `useAutocalling` and `useDottedNotation`
off and `useNameMapper` on, a reference whose first segment's leading
identifier (the part of its dotted base before the first dot) is a known
local name renders as the plain dotted-path text of its segments —
`genPlainVar`, which contains no `VFFSL`/`VFN` call. -/
theorem genCheetahVar_local_first_renders_plain (ulim : Bool) (mm mms : String)
    (gtoks builtinNames localVars globalVars : List String) (c : NameChunk)
    (cs : List NameChunk)
    (h : localVars.contains (partitionDot c.name).1 = true) :
    genCheetahVar ⟨true, false, false, ulim, mm, mms, gtoks, true⟩ builtinNames localVars
        globalVars (c :: cs) false = genPlainVar (c :: cs) := by
  have h2 : (partitionDot c.name).1 ∈ localVars := by simpa using h
  simp [genCheetahVar, h2]

/-- C2 (witness): with `foo` a local name, `$foo.bar.baz()` renders as the
plain `foo.bar.baz()`, with no dynamic-resolution call. -/
theorem genCheetahVar_local_first_renders_plain_witness :
    List.contains ["self", "foo"] (partitionDot "foo.bar").1 = true ∧
    genCheetahVar ⟨true, false, false, true, "respond", "writeBody", [], true⟩ []
        ["self", "foo"] ["VFN", "VFFSL"] [⟨"foo.bar", true, ""⟩, ⟨"baz", false, "()"⟩] false =
      "foo.bar.baz()" :=
  ⟨by decide,
    (genCheetahVar_local_first_renders_plain true "respond" "writeBody" [] [] ["self", "foo"]
        ["VFN", "VFFSL"] ⟨"foo.bar", true, ""⟩ [⟨"baz", false, "()"⟩] (by decide)).trans
      (by rfl)⟩

/-- C9: the rendered module is the fixed future-import header, the
accumulated import statements joined in registration order, exactly one
base-class import line, the fixed module marker, the class body, the
gettext section and the fixed direct-execution stanza — shown concretely
for a two-import registration — and the gettext section is nonempty (a
`__CHEETAH_gettext_scannables` function) precisely when at least one
scannable was recorded. -/
theorem getModuleCode_layout (importStatements : List String) (i1 i2 : String)
    (base_import class_def : String) (scannables : List String) :
    getModuleCode importStatements base_import class_def scannables =
      "from __future__ import unicode_literals\n" ++ joinNL importStatements ++ "\n" ++
        base_import ++
        "\n\n\n# This is compiled yelp_cheetah sourcecode\n__YELP_CHEETAH__ = True\n\n\n" ++
        class_def ++ "\n\n" ++ gettext_scannables scannables ++
        "\nif __name__ == '__main__':\n    from os import environ\n    from sys import stdout\n" ++
        "    stdout.write(YelpCheetahTemplate(searchList=[environ]).respond())\n" ∧
    joinNL [i1, i2] = i1 ++ "\n" ++ i2 ∧
    (gettext_scannables scannables = "" ↔ scannables = []) ∧
    (scannables ≠ [] → ∃ t, gettext_scannables scannables =
      "\ndef __CHEETAH_gettext_scannables():" ++ t) := by
  refine ⟨by simp [getModuleCode, CLASS_NAME, String.append_assoc],
    by simp [joinNL, String.append_assoc], ?_, ?_⟩
  · constructor
    · intro h
      cases scannables with
      | nil => rfl
      | cons r rest =>
          exfalso
          have hlen := congrArg String.length h
          rw [gettext_scannables] at hlen
          simp [joinNL, String.length_append] at hlen
          exact absurd hlen.1.1 (by decide)
    · intro h
      subst h
      rfl
  · intro h
    cases scannables with
    | nil => exact absurd rfl h
    | cons r rest =>
        refine ⟨"\n" ++ joinNL ((INDENT ++ r) :: rest.map (fun nc => INDENT ++ nc)) ++ "\n\n",
          ?_⟩
        rw [gettext_scannables]
        simp only [joinNL, List.map_cons, List.isEmpty_cons, if_neg, Bool.false_eq_true,
          if_false]
        apply String.ext
        simp [String.data_append, List.append_assoc]

/-- C10: `set_extends` renames the entry-point method to the
`mainMethodNameForSubclasses` setting before checking the target against the
known global names: when the target is an already-known global it fails
with `InvalidExtends`, and the state it leaves behind already carries the
renamed main method — the rename is not undone. -/
theorem set_extends_renames_before_collision_check (discovered : List String)
    (s : CompilerState) (target : String) (v : Value)
    (hv : s.settings "mainMethodNameForSubclasses" = some v)
    (ht : s.globalVars.contains target = true) :
    set_extends discovered s target =
      ({ s with mainMethodName := v }, some CompilerError.InvalidExtends) := by
  have ht2 : target ∈ s.globalVars := by simpa using ht
  simp [set_extends, hv, ht2]

/-- A `LegacyCompiler` state as `__init__` leaves it: default settings, the
default main-method name, the initial globals, the initial base import. -/
def initialCompilerState : CompilerState :=
  { settings := defaultSettings
    mainMethodName := Value.vStr "respond"
    globalVars := initialGlobalVars
    base_import :=
      "from Cheetah.Template import " ++ CLASS_NAME ++ " as " ++ BASE_CLASS_NAME }

/-- C10 (witness): extending by the already-known global `VFN` fails with
`InvalidExtends` while leaving the main method renamed to `writeBody`. -/
theorem set_extends_renames_before_collision_check_witness :
    set_extends [] initialCompilerState "VFN" =
      ({ initialCompilerState with mainMethodName := Value.vStr "writeBody" },
        some CompilerError.InvalidExtends) :=
  set_extends_renames_before_collision_check [] initialCompilerState "VFN"
    (Value.vStr "writeBody") rfl rfl

end YelpCheetah
